import Mathlib

/-!
Verification of the course-assistant orchestration system.

This file gives a shallow embedding, in Lean, of the tool-orchestration core
of the repository (`src/main.py`) and of the calendar event store
(`src/tools/calendar_tool.py`), and proves the specified properties of the
chaining rule, the orchestration loop, the answer composer, the weather
argument guard, and the calendar CRUD operations.

Modelling conventions:
* Python strings are Lean `String`s; `str.strip()` is `pyStrip`,
  `str.lower()` is `pyLower`, `len` is `String.length`; these helpers are
  written by structural recursion on the character list so that every
  definition evaluates inside the kernel.
* Tool capabilities (the weather/calendar/holiday/search back ends and the
  language model) are external collaborators; they are modelled by an
  explicit environment `ToolEnv` of pure functions from a request to the
  returned text.  All failures of those collaborators are already reported
  in-band as text, exactly as in the source.
* The standard-library `json` module is modelled by an inductive `Json`
  value type together with an executable parser `Json.parse` for the JSON
  fragment the repository actually produces and consumes (objects, arrays,
  strings, integers, booleans, null; no floats and no \u escapes).
* The calendar backing file is modelled at the parsed-JSON level: the file
  holds a `Json` document; a file that is missing, unreadable or unparsable
  corresponds to the non-array case of `_load_events`.
-/

namespace CourseAssistant

/-! ## Python string helpers -/

/-- The ASCII whitespace characters removed by Python `str.strip()`:
space, tab, newline, carriage return, vertical tab, form feed. -/
def pyWhitespace : List Char :=
  [' ', '\t', '\n', '\r', Char.ofNat 11, Char.ofNat 12]

/-- Membership in the Python whitespace set. -/
def pyIsSpace (c : Char) : Bool :=
  pyWhitespace.contains c

/-- Python `str.strip()` (on the ASCII whitespace set). -/
def pyStrip (s : String) : String :=
  String.mk (((s.data.dropWhile pyIsSpace).reverse.dropWhile pyIsSpace).reverse)

/-- Python `str.lower()` (on the ASCII letters). -/
def pyLower (s : String) : String :=
  String.mk (s.data.map Char.toLower)

/-- Decimal value of a digit list. -/
def digitsToNat : List Char → Nat → Nat
  | [], acc => acc
  | c :: rest, acc => digitsToNat rest (acc * 10 + (c.toNat - 48))

/-- Nonempty all-digit string. -/
def allDigits (s : String) : Bool :=
  !s.data.isEmpty && s.data.all Char.isDigit

/-- Python `int(s)` restricted to digit strings: `some` exactly on nonempty
all-digit input. -/
def pyParseNat (s : String) : Option Nat :=
  if allDigits s then some (digitsToNat s.data 0) else none

/-- Auxiliary recursion of `pySplitChar`. -/
def splitCharAux (sep : Char) : List Char → List Char → List String
  | [], acc => [String.mk acc.reverse]
  | c :: rest, acc =>
    if c == sep then
      String.mk acc.reverse :: splitCharAux sep rest []
    else splitCharAux sep rest (c :: acc)

/-- Python `s.split(sep)` for a one-character separator. -/
def pySplitChar (s : String) (sep : Char) : List String :=
  splitCharAux sep s.data []

/-- Membership test of `needle` as a prefix of `hay`, on character lists. -/
def charsStartWith : List Char → List Char → Bool
  | [], _ => true
  | _ :: _, [] => false
  | n :: ns, h :: hs => n == h && charsStartWith ns hs

/-- Substring containment on character lists (Python `needle in hay`). -/
def charsContains : List Char → List Char → Bool
  | hay, needle =>
    match hay with
    | [] => needle.isEmpty
    | _ :: rest => charsStartWith needle hay || charsContains rest needle

/-- Python substring test `needle in hay` for strings. -/
def strContains (hay needle : String) : Bool :=
  charsContains hay.data needle.data

/-- Python truthiness of an optional string (`None` and `""` are falsy). -/
def optTruthy : Option String → Bool
  | none => false
  | some s => s != ""

/-! ## JSON values and a parser for the repository's JSON fragment -/

/-- Parsed JSON documents, as produced by `json.loads` / consumed by
`json.dump`.  Numbers are restricted to integers: the repository only ever
serialises strings and booleans. -/
inductive Json where
  | null : Json
  | bool (b : Bool) : Json
  | num (n : Int) : Json
  | str (s : String) : Json
  | arr (items : List Json) : Json
  | obj (fields : List (String × Json)) : Json

/-- Python `dict.get`: with duplicate keys in the source text, `json.loads`
keeps the last binding, so lookup returns the last matching field. -/
def jLookup (fields : List (String × Json)) (k : String) : Option Json :=
  match fields.reverse.find? (fun p => p.1 == k) with
  | some p => some p.2
  | none => none

/-- Python truthiness of a JSON value. -/
def Json.truthy : Json → Bool
  | Json.null => false
  | Json.bool b => b
  | Json.num n => n != 0
  | Json.str s => s != ""
  | Json.arr items => !items.isEmpty
  | Json.obj fields => !fields.isEmpty

/-- The left curly brace character. -/
def lbrace : Char := Char.ofNat 123

/-- The right curly brace character. -/
def rbrace : Char := Char.ofNat 125

/-- The four JSON whitespace characters. -/
def jsonWsChars : List Char := [' ', '\t', '\n', '\r']

/-- Drop JSON whitespace. -/
def skipWs (cs : List Char) : List Char :=
  cs.dropWhile (fun c => jsonWsChars.contains c)

/-- The two-character JSON escapes and their denotations (`\u` escapes
are outside the modelled fragment). -/
def jsonEscapeTable : List (Char × Char) :=
  [('"', '"'), ('\\', '\\'), ('/', '/'), ('n', '\n'), ('t', '\t'),
   ('r', '\r'), ('b', Char.ofNat 8), ('f', Char.ofNat 12)]

/-- Decode a single JSON escape character (after a backslash). -/
def jsonUnescape (c : Char) : Option Char :=
  (jsonEscapeTable.find? (fun p => p.1 == c)).map (fun p => p.2)

/-- Parse the body of a JSON string literal (after the opening quote),
returning the decoded characters and the remaining input. -/
def jsonStrChars : List Char → Option (List Char × List Char)
  | [] => none
  | c :: rest =>
    if c == '"' then some ([], rest)
    else if c == '\\' then
      match rest with
      | [] => none
      | e :: rest2 =>
        match jsonUnescape e with
        | none => none
        | some d =>
          match jsonStrChars rest2 with
          | none => none
          | some (s, r) => some (d :: s, r)
    else if c.toNat < 32 then none
    else
      match jsonStrChars rest with
      | none => none
      | some (s, r) => some (c :: s, r)

/-- Parse a JSON integer literal. -/
def jsonParseNum (cs : List Char) : Option (Int × List Char) :=
  let p : Bool × List Char :=
    match cs with
    | '-' :: rest => (true, rest)
    | _ => (false, cs)
  let ds := p.2.takeWhile Char.isDigit
  let rest := p.2.dropWhile Char.isDigit
  if ds.isEmpty then none
  else if ds.length > 1 && ds.head? == some '0' then none
  else
    let n := digitsToNat ds 0
    some ((if p.1 then -(n : Int) else (n : Int)), rest)

mutual

/-- Fuel-indexed recursive-descent parser for one JSON value. -/
def jsonParseValue : Nat → List Char → Option (Json × List Char)
  | 0, _ => none
  | Nat.succ fuel, cs =>
    match skipWs cs with
    | [] => none
    | c :: rest =>
      if c == '"' then
        match jsonStrChars rest with
        | some (s, r) => some (Json.str (String.mk s), r)
        | none => none
      else if c == lbrace then
        match skipWs rest with
        | [] => none
        | d :: rest2 =>
          if d == rbrace then some (Json.obj [], rest2)
          else jsonParseMembers fuel (skipWs rest) []
      else if c == '[' then
        match skipWs rest with
        | [] => none
        | d :: rest2 =>
          if d == ']' then some (Json.arr [], rest2)
          else jsonParseItems fuel (skipWs rest) []
      else
        match c :: rest with
        | 't' :: 'r' :: 'u' :: 'e' :: r => some (Json.bool true, r)
        | 'f' :: 'a' :: 'l' :: 's' :: 'e' :: r => some (Json.bool false, r)
        | 'n' :: 'u' :: 'l' :: 'l' :: r => some (Json.null, r)
        | cs2 =>
          match jsonParseNum cs2 with
          | some (n, r) => some (Json.num n, r)
          | none => none

/-- Parse the members of a JSON object, positioned at the start of a key. -/
def jsonParseMembers : Nat → List Char → List (String × Json) →
    Option (Json × List Char)
  | 0, _, _ => none
  | Nat.succ fuel, cs, acc =>
    match skipWs cs with
    | [] => none
    | c :: rest =>
      if c == '"' then
        match jsonStrChars rest with
        | none => none
        | some (k, r1) =>
          match skipWs r1 with
          | ':' :: r2 =>
            match jsonParseValue fuel r2 with
            | none => none
            | some (v, r3) =>
              let acc2 := acc ++ [(String.mk k, v)]
              match skipWs r3 with
              | ',' :: r4 => jsonParseMembers fuel r4 acc2
              | e :: r4 =>
                if e == rbrace then some (Json.obj acc2, r4) else none
              | [] => none
          | _ => none
      else none

/-- Parse the items of a JSON array, positioned at the start of a value. -/
def jsonParseItems : Nat → List Char → List Json → Option (Json × List Char)
  | 0, _, _ => none
  | Nat.succ fuel, cs, acc =>
    match jsonParseValue fuel cs with
    | none => none
    | some (v, r1) =>
      let acc2 := acc ++ [v]
      match skipWs r1 with
      | ',' :: r2 => jsonParseItems fuel r2 acc2
      | ']' :: r2 => some (Json.arr acc2, r2)
      | _ => none

end

/-- Model of Python `json.loads` on the repository's JSON fragment:
`some` on a well-formed document, `none` where `json.loads` raises. -/
def Json.parse (s : String) : Option Json :=
  match jsonParseValue (s.length + 1) s.data with
  | some (j, r) => if (skipWs r).isEmpty then some j else none
  | none => none

/-! ## Heuristic predicates of `src/main.py` -/

/-- Embedding of `_user_requested_weather_on_exam_day` (main.py:106-108). -/
def _user_requested_weather_on_exam_day (user_text : String) : Bool :=
  let t := pyLower user_text
  strContains t "exam" && strContains t "weather" &&
    (strContains t "that day" || strContains t "specific day" ||
      strContains t "exam day")

/-- Match of the anchored pattern of four digits, dash, two digits, dash,
two digits, exactly filling the string (`^` to `$` with no remainder). -/
def dateShape (s : String) : Bool :=
  match s.data with
  | [a, b, c, d, e, f, g, h, i, j] =>
    a.isDigit && b.isDigit && c.isDigit && d.isDigit && e == '-' &&
      f.isDigit && g.isDigit && h == '-' && i.isDigit && j.isDigit
  | _ => false

/-- Python `re.match` of the date pattern against a whole string: `$` also
matches just before one trailing newline. -/
def dateReMatch (s : String) : Bool :=
  dateShape s ||
    (s.data.getLast? == some '\n' && dateShape (String.mk s.data.dropLast))

/-- Embedding of `_extract_date_from_calendar_json` (main.py:111-119):
parse the tool text as JSON and return the `date` field of an object whose
`found` field is truthy, when that field is a string of date shape. -/
def _extract_date_from_calendar_json (tool_text : String) : Option String :=
  match Json.parse tool_text with
  | some (Json.obj fields) =>
    if (match jLookup fields "found" with
        | some v => v.truthy
        | none => false) then
      match jLookup fields "date" with
      | some (Json.str d) => if dateReMatch d then some d else none
      | _ => none
    else none
  | _ => none

/-- The fixed closed list of acknowledgement phrases of
`_is_social_or_useless` (main.py:126-129). -/
def socialPhrases : List String :=
  ["you\x27re welcome!", "you\u2019re welcome!", "welcome!", "no problem",
   "np", "ok", "okay", "sure", "thanks", "thank you", "great", "cool"]

/-- The fixed set of short filler tokens of `_is_social_or_useless`
(main.py:132). -/
def fillerTokens : List String := ["ok", "k", "sure", "yes", "no"]

/-- Embedding of `_is_social_or_useless` (main.py:122-134).  Note the first
test is Python `if not text`, which is emptiness of the string as given,
before any trimming. -/
def _is_social_or_useless (text : String) : Bool :=
  if text = "" then true
  else
    let t := pyLower (pyStrip text)
    if t ∈ socialPhrases then true
    else if t.length ≤ 4 ∧ t ∈ fillerTokens then true
    else false

/-- Auxiliary recursion of `_unique_preserve_order`, carrying the set of
names already seen. -/
def uniquePreserveAux : List String → List String → List String
  | [], _ => []
  | x :: rest, seen =>
    if x ∈ seen then uniquePreserveAux rest seen
    else x :: uniquePreserveAux rest (x :: seen)

/-- Embedding of `_unique_preserve_order` (main.py:137-144). -/
def _unique_preserve_order (items : List String) : List String :=
  uniquePreserveAux items []

/-- Rendering of a flat JSON value inside a Python f-string (`str(value)`).
Container values never occur in the calendar payloads and are not
modelled. -/
def pyDisplay : Json → String
  | Json.str s => s
  | Json.bool true => "True"
  | Json.bool false => "False"
  | Json.null => "None"
  | Json.num n => toString n
  | Json.arr _ => ""
  | Json.obj _ => ""

/-- Lookup of a field rendered as text, with a default for a missing key
(Python `obj.get(k, default)` inside an f-string). -/
def jFieldDisplay (fields : List (String × Json)) (k : String)
    (dflt : String) : String :=
  match jLookup fields k with
  | some v => pyDisplay v
  | none => dflt

/-- Embedding of `_format_exam_json` (main.py:147-161): reformat the
calendar JSON payload into the two-line summary when it matches the
next-exam schema (`found` is exactly `True` and `type` equals "exam"). -/
def _format_exam_json (calendar_out : String) : Option String :=
  match Json.parse calendar_out with
  | some (Json.obj fields) =>
    match jLookup fields "found", jLookup fields "type" with
    | some (Json.bool true), some (Json.str ty) =>
      if ty = "exam" then
        some (pyStrip ("Next exam: " ++ jFieldDisplay fields "title" "Exam" ++
          "\nDate: " ++ jFieldDisplay fields "date" "" ++ " " ++
          jFieldDisplay fields "time" ""))
      else none
    | _, _ => none
  | _ => none

/-! ## Data model: tool calls, messages, environment -/

/-- Python argument values as they reach the tool node: a string or `None`. -/
inductive PyVal where
  | str (s : String) : PyVal
  | pyNone : PyVal
deriving DecidableEq

/-- Python `str(v)`. -/
def pyStr : PyVal → String
  | PyVal.str s => s
  | PyVal.pyNone => "None"

/-- Python truthiness of an argument value. -/
def pyValTruthy : PyVal → Bool
  | PyVal.str s => s != ""
  | PyVal.pyNone => false

/-- A model-requested tool call: identifier, tool name, argument mapping. -/
structure ToolCall where
  id : String
  name : String
  args : List (String × PyVal)
deriving DecidableEq

/-- Python `tool_args.get(k)`: last binding wins, `none` for a missing key. -/
def argGet (tc : ToolCall) (k : String) : Option PyVal :=
  match tc.args.reverse.find? (fun p => p.1 == k) with
  | some p => some p.2
  | none => none

/-- Transcript messages: user text, system text, assistant text with its
requested tool calls, or a tool result correlated by call id. -/
inductive Message where
  | user (text : String) : Message
  | system (text : String) : Message
  | assistant (text : String) (tool_calls : List ToolCall) : Message
  | toolResult (name : String) (content : String) (call_id : String) : Message
deriving DecidableEq

/-- The `content` attribute of a message. -/
def contentOf : Message → String
  | Message.user t => t
  | Message.system t => t
  | Message.assistant t _ => t
  | Message.toolResult _ c _ => c

/-- The call id carried by a tool-result message (and `""` otherwise). -/
def callIdOf : Message → String
  | Message.toolResult _ _ i => i
  | _ => ""

/-- Python `getattr(messages[-1], "tool_calls", None) or []`. -/
def toolCallsOfLast (messages : List Message) : List ToolCall :=
  match messages.getLast? with
  | some (Message.assistant _ tcs) => tcs
  | _ => []

/-- Embedding of `_last_user_text` (main.py:99-103). -/
def _last_user_text (messages : List Message) : String :=
  (messages.reverse.findSome? (fun m =>
    match m with
    | Message.user t => some t
    | _ => none)).getD ""

/-- The external collaborators: `exec` is the result text of invoking a
named tool on an argument mapping; `explain` is the grounded-explanation
call to the completion capability (user question, evidence ↦ text). -/
structure ToolEnv where
  exec : String → List (String × PyVal) → String
  explain : String → String → String

/-! ## The tool node and the chaining rule (main.py:283-347) -/

/-- The placeholder location tokens rejected by the weather guard
(main.py:308). -/
def weatherBadLocs : List String :=
  ["current location", "my location", "here", "now", "today", "local",
   "location"]

/-- The location argument of a weather call:
`str(tool_args.get("location", "")).strip()`. -/
def weatherLocArg (tc : ToolCall) : String :=
  pyStrip (pyStr ((argGet tc "location").getD (PyVal.str "")))

/-- The weather location guard (main.py:309): the lowercased trimmed
location is a placeholder token, or is shorter than 2 characters. -/
def weatherGuardRejects (tc : ToolCall) : Bool :=
  decide (pyLower (weatherLocArg tc) ∈ weatherBadLocs ∨
    (weatherLocArg tc).length < 2)

/-- Python `not tool_args.get("on_date", None)`. -/
def weatherOnDateAbsent (tc : ToolCall) : Bool :=
  match argGet tc "on_date" with
  | none => true
  | some v => !(pyValTruthy v)

/-- The in-band error text produced by the weather location guard. -/
def weatherGuardError : String :=
  "Error: No valid city provided. Please provide a real city (e.g., \x27Haifa, Israel\x27)."

/-- The per-turn state threaded through the tool loop: the resolved exam
date, whether a guard-accepted weather call lacked `on_date`, and the
location recorded from the latest guard-accepted weather call. -/
structure ChainState where
  examDate : Option String
  sawWeatherMissingDate : Bool
  weatherLocationUsed : Option String
deriving DecidableEq

/-- The state at the start of a tool batch. -/
def initChainState : ChainState := ⟨none, false, none⟩

/-- Processing of one tool call inside `tool_node`'s loop
(main.py:296-333): the weather guard, the capability invocation, the
calendar-date extraction, and the emitted tool-result message. -/
def processToolCall (env : ToolEnv) (st : ChainState) (tc : ToolCall) :
    ChainState × Message :=
  if tc.name == "get_weather" then
    if weatherGuardRejects tc then
      (st, Message.toolResult tc.name weatherGuardError tc.id)
    else
      ({ st with
          weatherLocationUsed := some (weatherLocArg tc),
          sawWeatherMissingDate :=
            st.sawWeatherMissingDate || weatherOnDateAbsent tc },
        Message.toolResult tc.name (env.exec tc.name tc.args) tc.id)
  else
    let result := env.exec tc.name tc.args
    if tc.name == "check_calendar" then
      match _extract_date_from_calendar_json result with
      | some d =>
        ({ st with examDate := some d },
          Message.toolResult tc.name result tc.id)
      | none => (st, Message.toolResult tc.name result tc.id)
    else
      (st, Message.toolResult tc.name result tc.id)

/-- The tool loop over a batch of calls, in the order the model listed
them, threading the chain state and collecting one result per call. -/
def runToolCalls (env : ToolEnv) (st : ChainState) :
    List ToolCall → ChainState × List Message
  | [] => (st, [])
  | tc :: rest =>
    let p := processToolCall env st tc
    let q := runToolCalls env p.1 rest
    (q.1, p.2 :: q.2)

/-- The chaining condition of main.py:336, on the final loop state:
the user text asks for weather on the exam day, a truthy resolved exam
date, a truthy recorded weather location, and a weather call that lacked
`on_date`. -/
def chainFireState (user_text : String) (st : ChainState) : Bool :=
  _user_requested_weather_on_exam_day user_text &&
    optTruthy st.examDate && optTruthy st.weatherLocationUsed &&
    st.sawWeatherMissingDate

/-- The reserved identifier of the chain-synthesized tool result. -/
def autoChainId : String := "auto_chained_exam_weather"

/-- The chain-synthesized weather result (main.py:338-345). -/
def chainedWeatherMessage (env : ToolEnv) (st : ChainState) : Message :=
  Message.toolResult "get_weather"
    (env.exec "get_weather"
      [("location", PyVal.str (st.weatherLocationUsed.getD "")),
       ("on_date", PyVal.str (st.examDate.getD ""))])
    autoChainId

/-- Embedding of `tool_node` (main.py:283-347). -/
def tool_node (env : ToolEnv) (messages : List Message) : List Message :=
  let user_text := _last_user_text messages
  let run := runToolCalls env initChainState (toolCallsOfLast messages)
  if chainFireState user_text run.1 then
    run.2 ++ [chainedWeatherMessage env run.1]
  else run.2

/-! ## The orchestration loop (main.py:350-363) -/

/-- Embedding of `should_continue` (main.py:350-353). -/
def should_continue (messages : List Message) : String :=
  if (toolCallsOfLast messages).isEmpty then "end" else "tools"

/-- One agent step: append the assistant message obtained from the
completion capability (text and requested tool calls). -/
def agentStep (model : List Message → String × List ToolCall)
    (messages : List Message) : List Message :=
  messages ++ [Message.assistant (model messages).1 (model messages).2]

/-- The compiled LangGraph loop (main.py:356-363): agent, then either END
or the tool node and back to the agent.  `fuel` bounds the number of
observed iterations; `none` means the run has not terminated within that
many iterations — the source itself has no bound. -/
def orchestrate (env : ToolEnv)
    (model : List Message → String × List ToolCall) :
    Nat → List Message → Option (List Message)
  | 0, _ => none
  | Nat.succ fuel, messages =>
    let messages2 := agentStep model messages
    if should_continue messages2 = "end" then some messages2
    else orchestrate env model fuel (messages2 ++ tool_node env messages2)

/-- A completion capability that requests a tool call on every turn. -/
def loopingModel : List Message → String × List ToolCall :=
  fun _ => ("", [ToolCall.mk "c1" "check_calendar" []])

/-! ## The calendar event store (src/tools/calendar_tool.py) -/

/-- An in-memory calendar event (a dict with the four required keys, as
built by `add_event` and by the default set). -/
structure Event where
  title : String
  date : String
  time : String
  type : String
deriving DecidableEq

/-- The JSON dict persisted for an event. -/
def eventToJson (e : Event) : Json :=
  Json.obj [("title", Json.str e.title), ("date", Json.str e.date),
    ("time", Json.str e.time), ("type", Json.str e.type)]

/-- Gregorian leap years, as validated by `datetime`. -/
def isLeapYear (y : Nat) : Bool :=
  (y % 4 == 0 && y % 100 != 0) || y % 400 == 0

/-- Number of days of a month, as validated by `datetime`. -/
def daysInMonth (y m : Nat) : Nat :=
  if m == 2 then (if isLeapYear y then 29 else 28)
  else if m == 4 || m == 6 || m == 9 || m == 11 then 30
  else 31

/-- Success of `datetime.strptime(s, "%Y-%m-%d")`: exactly four year
digits, one or two month and day digits, and a valid calendar date. -/
def strptimeDateOk (s : String) : Bool :=
  match pySplitChar s '-' with
  | [ys, ms, ds] =>
    if ys.length = 4 ∧ allDigits ys = true ∧ 1 ≤ ms.length ∧ ms.length ≤ 2 ∧
        allDigits ms = true ∧ 1 ≤ ds.length ∧ ds.length ≤ 2 ∧
        allDigits ds = true then
      match pyParseNat ys, pyParseNat ms, pyParseNat ds with
      | some y, some m, some d =>
        decide (1 ≤ y ∧ 1 ≤ m ∧ m ≤ 12 ∧ 1 ≤ d ∧ d ≤ daysInMonth y m)
      | _, _, _ => false
    else false
  | _ => false

/-- Success of `datetime.strptime(s, "%H:%M")`: one or two digits each,
hour at most 23, minute at most 59. -/
def strptimeTimeOk (s : String) : Bool :=
  match pySplitChar s ':' with
  | [hs, ms] =>
    if 1 ≤ hs.length ∧ hs.length ≤ 2 ∧ allDigits hs = true ∧
        1 ≤ ms.length ∧ ms.length ≤ 2 ∧ allDigits ms = true then
      match pyParseNat hs, pyParseNat ms with
      | some h, some m => decide (h ≤ 23 ∧ m ≤ 59)
      | _, _ => false
    else false
  | _ => false

/-- The required event keys (calendar_tool.py:108). -/
def requiredEventKeys : List String := ["title", "date", "time", "type"]

/-- Embedding of `CalendarTool._is_valid_event` (calendar_tool.py:105-121)
on a persisted JSON value: a dict with the four required keys, a nonempty
trimmed string title and type, and date/time parsed by `strptime`. -/
def _is_valid_event (j : Json) : Bool :=
  match j with
  | Json.obj fields =>
    requiredEventKeys.all (fun k => (jLookup fields k).isSome) &&
    (match jLookup fields "title" with
     | some (Json.str s) => pyStrip s != ""
     | _ => false) &&
    (match jLookup fields "type" with
     | some (Json.str s) => pyStrip s != ""
     | _ => false) &&
    (match jLookup fields "date" with
     | some (Json.str s) => strptimeDateOk s
     | _ => false) &&
    (match jLookup fields "time" with
     | some (Json.str s) => strptimeTimeOk s
     | _ => false)
  | _ => false

/-- The built-in default event set (calendar_tool.py:38-64). -/
def _default_events : List Event :=
  [⟨"Information Retrieval Final Project", "2026-02-15", "23:59", "deadline"⟩,
   ⟨"IR Lecture - Advanced Ranking", "2026-02-03", "10:00", "class"⟩,
   ⟨"Machine Learning Exam", "2026-02-10", "09:00", "exam"⟩,
   ⟨"Study Group - RAG Systems", "2026-02-05", "14:00", "meeting"⟩]

/-- Embedding of `CalendarTool._save_events` (calendar_tool.py:95-100):
the backing file receives the JSON array of the event dicts.  The
serialisation itself is the trusted standard-library `json.dump`. -/
def _save_events (events : List Event) : Json :=
  Json.arr (events.map eventToJson)

/-- Embedding of `CalendarTool._load_events` (calendar_tool.py:74-93) on a
parsed backing file: a JSON array is filtered to the valid event dicts;
anything else (including an unreadable or unparsable file) falls back to
the built-in default set. -/
def _load_events (file_content : Json) : List Json :=
  match file_content with
  | Json.arr items => items.filter _is_valid_event
  | _ => _default_events.map eventToJson

/-- The event dict built by `add_event` from its stripped arguments, with
the type lowercased (calendar_tool.py:130-135). -/
def mkAddedEvent (title date_str time_str event_type : String) : Event :=
  ⟨pyStrip title, pyStrip date_str, pyStrip time_str,
    pyLower (pyStrip event_type)⟩

/-- The duplicate test of `add_event` (calendar_tool.py:141-146):
case-insensitive on the title, exact on date, time and type. -/
def eventDupMatches (e event : Event) : Bool :=
  pyLower e.title == pyLower event.title && e.date == event.date &&
    e.time == event.time && e.type == event.type

/-- The sort key of the store: ascending (date, time), by string order. -/
def eventLe (a b : Event) : Bool :=
  a.date < b.date || (a.date == b.date && a.time ≤ b.time)

/-- Embedding of `CalendarTool.add_event` (calendar_tool.py:126-151); the
result is the new store contents and the returned message.  The store is
persisted (sorted) exactly when the message is the "Added" one. -/
def add_event (events : List Event)
    (title date_str time_str event_type : String) : List Event × String :=
  let event := mkAddedEvent title date_str time_str event_type
  if !(_is_valid_event (eventToJson event)) then
    (events, "Error: Invalid event. Use date YYYY-MM-DD and time HH:MM.")
  else if events.any (fun e => eventDupMatches e event) then
    (events, "Event already exists.")
  else
    ((events ++ [event]).mergeSort eventLe,
      "Added: " ++ event.title ++ " on " ++ event.date ++ " at " ++
        event.time ++ " (" ++ event.type ++ ").")

/-- Embedding of `CalendarTool.remove_event` (calendar_tool.py:153-169);
the result is the new store contents, the returned message, and whether
`_save_events` was performed. -/
def remove_event (events : List Event) (title : String) :
    List Event × String × Bool :=
  let t := pyLower (pyStrip title)
  if t = "" then (events, "Error: Please provide a title to remove.", false)
  else
    let remaining := events.filter (fun e => pyLower (pyStrip e.title) != t)
    let removed := events.length - remaining.length
    if removed = 0 then
      (remaining, "No event found with title \x27" ++ title ++ "\x27.", false)
    else
      (remaining,
        "Removed " ++ toString removed ++ " event(s) titled \x27" ++
          title ++ "\x27.", true)

/-! ## The answer composer (main.py:370-440) -/

/-- The model's final text: `(getattr(messages[-1], "content", "") or
"").strip()`. -/
def llmResponseOf (messages : List Message) : String :=
  match messages.getLast? with
  | some m => pyStrip (contentOf m)
  | none => ""

/-- The nonempty names of the tool results of a transcript, in order
(main.py:383-388). -/
def toolNamesOf (messages : List Message) : List String :=
  messages.filterMap (fun m =>
    match m with
    | Message.toolResult n _ _ => if n == "" then none else some n
    | _ => none)

/-- The four per-category outputs collected by `_extract_tool_outputs`. -/
structure ToolOutputs where
  weather_out : Option String
  calendar_out : Option String
  holiday_out : Option String
  rag_out : Option String
deriving DecidableEq

/-- The names routed to the holiday output (main.py:183). -/
def holidayToolNames : List String :=
  ["get_next_holiday", "get_public_holidays", "is_public_holiday"]

/-- One step of `_extract_tool_outputs`: a tool result overwrites the
output slot of its category with its stripped content. -/
def updateToolOutputs (acc : ToolOutputs) (m : Message) : ToolOutputs :=
  match m with
  | Message.toolResult n c _ =>
    if n == "get_weather" then { acc with weather_out := some (pyStrip c) }
    else if n == "check_calendar" then
      { acc with calendar_out := some (pyStrip c) }
    else if n == "search_course_materials" then
      { acc with rag_out := some (pyStrip c) }
    else if n ∈ holidayToolNames then
      { acc with holiday_out := some (pyStrip c) }
    else acc
  | _ => acc

/-- Embedding of `_extract_tool_outputs` (main.py:164-186). -/
def _extract_tool_outputs (messages : List Message) : ToolOutputs :=
  messages.foldl updateToolOutputs ⟨none, none, none, none⟩

/-- Embedding of `_llm_course_explanation` (main.py:189-210): the grounded
second completion call; an empty text (and a raised error, which the env
models as empty output) falls back to the fixed apology line. -/
def _llm_course_explanation (env : ToolEnv)
    (user_input rag_evidence : String) : String :=
  let text := pyStrip (env.explain user_input rag_evidence)
  if text = "" then
    "I couldn\x27t generate a course explanation from the evidence."
  else text

/-- Python `"\n\n".join([p.strip() for p in parts if p and
p.strip()]).strip()`. -/
def sectionJoin (parts : List String) : String :=
  pyStrip (String.intercalate "\n\n"
    ((parts.map pyStrip).filter (fun p => p != "")))

/-- The deterministic weather / calendar / holiday sections shared by
`build_final_answer_multi` (main.py:228-236) and the non-RAG branch of
`chat` (main.py:417-424). -/
def nonRagParts (weather_out calendar_out holiday_out : Option String) :
    List String :=
  (if optTruthy weather_out then
    ["**Weather**\n" ++ weather_out.getD ""]
  else []) ++
  (if optTruthy calendar_out then
    ["**Schedule / Exams**\n" ++
      (match _format_exam_json (calendar_out.getD "") with
       | some pretty => pretty
       | none => calendar_out.getD "")]
  else []) ++
  (if optTruthy holiday_out then
    ["**Holidays**\n" ++ holiday_out.getD ""]
  else [])

/-- Embedding of `build_final_answer_multi` (main.py:213-243). -/
def build_final_answer_multi (env : ToolEnv) (user_input : String)
    (weather_out calendar_out holiday_out rag_out : Option String) :
    String :=
  sectionJoin (nonRagParts weather_out calendar_out holiday_out ++
    (if optTruthy rag_out then
      ["**Course explanation**\n" ++
        _llm_course_explanation env user_input (rag_out.getD ""),
       "**Evidence (retrieved chunks)**\n" ++ rag_out.getD ""]
    else []))

/-- The policy-selection part of `chat` (main.py:394-427): the response
before the final fallback. -/
def chat_select_response (env : ToolEnv) (user_input : String)
    (messages : List Message) : String :=
  let llm_response := llmResponseOf messages
  let unique_tools := _unique_preserve_order (toolNamesOf messages)
  let outs := _extract_tool_outputs messages
  if unique_tools.isEmpty then llm_response
  else if unique_tools = ["search_course_materials"] then
    (if _is_social_or_useless llm_response then
      (if optTruthy outs.rag_out then outs.rag_out.getD "" else llm_response)
    else llm_response)
  else if optTruthy outs.rag_out then
    build_final_answer_multi env user_input outs.weather_out
      outs.calendar_out outs.holiday_out outs.rag_out
  else
    let response :=
      sectionJoin (nonRagParts outs.weather_out outs.calendar_out
        outs.holiday_out)
    if response = "" then llm_response else response

/-- The final fallback of `chat` (main.py:429-434): a social/useless
response is replaced by the most recent nonempty tool output. -/
def chat_apply_fallback (messages : List Message) (response : String) :
    String :=
  if _is_social_or_useless response then
    match messages.reverse.findSome? (fun m =>
      match m with
      | Message.toolResult _ c _ =>
        if pyStrip c != "" then some (pyStrip c) else none
      | _ => none) with
    | some t => t
    | none => response
  else response

/-- The composed final answer of `chat` for a finished transcript. -/
def chat_compose (env : ToolEnv) (user_input : String)
    (messages : List Message) : String :=
  chat_apply_fallback messages (chat_select_response env user_input messages)

/-! ## Derived observations used in the statements -/

/-- A weather call that passed the location guard, so a location was
recorded for it. -/
def isWeatherAccepted (tc : ToolCall) : Bool :=
  tc.name == "get_weather" && !(weatherGuardRejects tc)

/-- The date (if any) that processing one call contributes to the resolved
exam date of the turn. -/
def calExtract (env : ToolEnv) (tc : ToolCall) : Option String :=
  if tc.name == "check_calendar" then
    _extract_date_from_calendar_json (env.exec tc.name tc.args)
  else none

/-- The tool-result message produced for one call; it does not depend on
the threaded chain state. -/
def callOutput (env : ToolEnv) (tc : ToolCall) : Message :=
  (processToolCall env initChainState tc).2

/-- The chain state after the whole batch of the turn. -/
def toolNodeState (env : ToolEnv) (messages : List Message) : ChainState :=
  (runToolCalls env initChainState (toolCallsOfLast messages)).1

/-- The per-call tool results of the turn, without any chained extra. -/
def toolNodeOutputs (env : ToolEnv) (messages : List Message) :
    List Message :=
  (runToolCalls env initChainState (toolCallsOfLast messages)).2

/-- An environment whose collaborators all answer with empty text. -/
def trivialEnv : ToolEnv := ⟨fun _ _ => "", fun _ _ => ""⟩

/-- A concrete environment for exercising the chaining rule: the calendar
answers with a found next-exam payload, the weather tool with a
forecast. -/
def chainWitnessEnv : ToolEnv :=
  ⟨fun name _ =>
    if name == "check_calendar" then
      "\x7b\"found\": true, \"date\": \"2026-02-10\"\x7d"
    else if name == "get_weather" then "Sunny, 21 C" else "",
   fun _ _ => ""⟩

/-- A concrete turn on which the chaining rule fires: the user asks for
the weather on the exam day, the model requested a calendar call and a
weather call without `on_date`. -/
def chainWitnessMessages : List Message :=
  [Message.user "When is my next exam, and what is the weather that day?",
   Message.assistant ""
     [ToolCall.mk "call1" "check_calendar" [("query", PyVal.str "next exam")],
      ToolCall.mk "call2" "get_weather" [("location", PyVal.str "Haifa")]]]

/-- A concrete finished transcript in which two distinct tools were used,
the search tool among them, but the recorded search output is empty. -/
def emptyRagMessages : List Message :=
  [Message.user "q", Message.assistant "" [],
   Message.toolResult "search_course_materials" "" "call1",
   Message.toolResult "get_weather" "sunny" "call2",
   Message.assistant "done" []]

/-- A concrete weather call with a placeholder location. -/
def guardWitnessCall : ToolCall :=
  ⟨"w1", "get_weather", [("location", PyVal.str "here")]⟩

/-- The stripped content of the most recent tool result whose name
satisfies a category predicate. -/
def lastOutputBy (p : String → Prop) [DecidablePred p]
    (messages : List Message) : Option String :=
  messages.reverse.findSome? (fun m =>
    match m with
    | Message.toolResult n c _ => if p n then some (pyStrip c) else none
    | _ => none)

/-! ## General lemmas about the string helpers -/

/-- Lowercasing maps the empty string, and only it, to the empty string. -/
theorem pyLower_empty_iff (s : String) : pyLower s = "" ↔ s = "" := by
  cases s with
  | mk data =>
    cases data <;> simp [pyLower, String.ext_iff]

/-! ## C3: the social/useless classifier -/

/-- C3, counterexample to the claim as stated: the one-space string is
empty after trimming, yet the classifier returns `false` for it, because
the code tests Python `not text` before trimming. -/
theorem social_classifier_counterexample :
    pyStrip " " = "" ∧ _is_social_or_useless " " = false :=
  ⟨by decide, by decide⟩

/-- C3, amended: the classifier returns `true` exactly for the empty
string (as given, before trimming), the strings whose lowercase trimmed
form is in the fixed acknowledgement list, and the strings whose lowercase
trimmed form has length at most 4 and is in the fixed filler set; it
returns `false` for all other strings. -/
theorem social_classifier_spec (text : String) :
    _is_social_or_useless text = true ↔
      (text = "" ∨ pyLower (pyStrip text) ∈ socialPhrases ∨
        ((pyLower (pyStrip text)).length ≤ 4 ∧
          pyLower (pyStrip text) ∈ fillerTokens)) := by
  unfold _is_social_or_useless
  by_cases h1 : text = ""
  · simp [h1]
  · by_cases h2 : pyLower (pyStrip text) ∈ socialPhrases
    · simp [h1, h2]
    · by_cases h3 : (pyLower (pyStrip text)).length ≤ 4 ∧
          pyLower (pyStrip text) ∈ fillerTokens
      · simp [h1, h2, h3]
      · simp [h1, h2, h3]

/-- C3, witness: the classifier accepts the acknowledgement "ok". -/
theorem social_classifier_spec_witness : _is_social_or_useless "ok" = true :=
  (social_classifier_spec "ok").mpr (Or.inr (Or.inl (by decide)))

/-! ## C5: the weather location guard -/

/-- C5: for a weather tool call whose trimmed location argument lowercases
into the placeholder list or is shorter than 2 characters, the invoker
returns the fixed error-text result — for every environment, so the
weather capability is not consulted; for every other location the result
is exactly the capability's answer. -/
theorem weather_guard_spec (env : ToolEnv) (st : ChainState) (tc : ToolCall)
    (hname : tc.name = "get_weather") :
    (pyLower (weatherLocArg tc) ∈ weatherBadLocs ∨
        (weatherLocArg tc).length < 2 →
      (processToolCall env st tc).2 =
        Message.toolResult "get_weather" weatherGuardError tc.id) ∧
    (¬(pyLower (weatherLocArg tc) ∈ weatherBadLocs ∨
        (weatherLocArg tc).length < 2) →
      (processToolCall env st tc).2 =
        Message.toolResult "get_weather" (env.exec tc.name tc.args) tc.id) := by
  constructor
  · intro h
    have hg : weatherGuardRejects tc = true := by
      simpa [weatherGuardRejects] using h
    simp [processToolCall, hname, hg]
  · intro h
    have hg : weatherGuardRejects tc = false := by
      simpa [weatherGuardRejects] using h
    simp [processToolCall, hname, hg]

/-- C5, witness: the placeholder location "here" is rejected with the
fixed error text. -/
theorem weather_guard_spec_witness :
    (processToolCall trivialEnv initChainState guardWitnessCall).2 =
      Message.toolResult "get_weather" weatherGuardError "w1" :=
  (weather_guard_spec trivialEnv initChainState guardWitnessCall rfl).1
    (by decide)

/-! ## C8: event-store round trip -/

/-- C8: saving a store of valid events and reloading the backing file
yields exactly the saved events (as their persisted dicts, in order, hence
equal as a set by content). -/
theorem event_store_round_trip (events : List Event)
    (hv : ∀ e ∈ events, _is_valid_event (eventToJson e) = true) :
    _load_events (_save_events events) = events.map eventToJson := by
  unfold _load_events _save_events
  exact List.filter_eq_self.mpr (fun j hj => by
    obtain ⟨e, he, rfl⟩ := List.mem_map.mp hj
    exact hv e he)

/-- C8, witness: the built-in default events round-trip unchanged. -/
theorem event_store_round_trip_witness :
    _load_events (_save_events _default_events) =
      _default_events.map eventToJson :=
  event_store_round_trip _default_events (by decide)

/-! ## C10: removal by title -/

/-- C10: `remove_event` removes exactly the events whose trimmed
lowercased title equals the trimmed lowercased argument, reports the
number removed, rejects an empty or whitespace-only title with the fixed
error text, and performs no save (and leaves the store unchanged) when
nothing matches. -/
theorem remove_event_spec (events : List Event) (title : String) :
    remove_event events title =
      if pyStrip title = "" then
        (events, "Error: Please provide a title to remove.", false)
      else if events.countP
          (fun e => pyLower (pyStrip e.title) == pyLower (pyStrip title)) =
            0 then
        (events, "No event found with title \x27" ++ title ++ "\x27.", false)
      else
        (events.filter
          (fun e => pyLower (pyStrip e.title) != pyLower (pyStrip title)),
         "Removed " ++
           toString (events.countP
             (fun e =>
               pyLower (pyStrip e.title) == pyLower (pyStrip title))) ++
           " event(s) titled \x27" ++ title ++ "\x27.", true) := by
  simp only [remove_event, bne]
  by_cases h0 : pyLower (pyStrip title) = ""
  · rw [if_pos h0, if_pos ((pyLower_empty_iff _).mp h0)]
  · rw [if_neg h0,
      if_neg (fun hh : pyStrip title = "" => h0 (by rw [hh]; rfl))]
    have hsplit : events.length =
        (events.filter
          (fun e => pyLower (pyStrip e.title) == pyLower (pyStrip title))).length +
        (events.filter
          (fun e =>
            !(pyLower (pyStrip e.title) == pyLower (pyStrip title)))).length :=
      List.length_eq_length_filter_add _
    have hcount : events.length -
        (events.filter
          (fun e =>
            !(pyLower (pyStrip e.title) == pyLower (pyStrip title)))).length =
        events.countP
          (fun e => pyLower (pyStrip e.title) == pyLower (pyStrip title)) := by
      rw [List.countP_eq_length_filter]
      omega
    rw [hcount]
    by_cases h1 : events.countP
        (fun e => pyLower (pyStrip e.title) == pyLower (pyStrip title)) = 0
    · rw [if_pos h1, if_pos h1]
      have hall : events.filter
          (fun e =>
            !(pyLower (pyStrip e.title) == pyLower (pyStrip title))) =
          events :=
        List.filter_eq_self.mpr (fun a ha => by
          simpa using List.countP_eq_zero.mp h1 a ha)
      rw [hall]
    · rw [if_neg h1, if_neg h1]

/-! ## Lemmas about the tool loop -/

/-- A string matched by the date pattern is nonempty. -/
theorem dateReMatch_ne_empty (s : String) (h : dateReMatch s = true) :
    s ≠ "" := by
  intro he
  subst he
  exact absurd h (by decide)

/-- An extracted calendar date is nonempty (it matched the date pattern),
so it is truthy in the chaining condition. -/
theorem extract_date_ne_empty (s d : String)
    (h : _extract_date_from_calendar_json s = some d) : d ≠ "" := by
  unfold _extract_date_from_calendar_json at h
  repeat' split at h
  all_goals try cases h
  all_goals exact dateReMatch_ne_empty _ (by assumption)

/-- A guard-accepted location is nonempty (its length is at least 2), so
it is truthy in the chaining condition. -/
theorem weatherLocArg_ne_empty (tc : ToolCall)
    (h : weatherGuardRejects tc = false) : weatherLocArg tc ≠ "" := by
  intro he
  have h2 : ¬(pyLower (weatherLocArg tc) ∈ weatherBadLocs ∨
      (weatherLocArg tc).length < 2) := by
    simpa [weatherGuardRejects] using h
  exact h2 (Or.inr (by rw [he]; decide))

/-- The result message of one call does not depend on the threaded chain
state. -/
theorem processToolCall_snd (env : ToolEnv) (st : ChainState)
    (tc : ToolCall) : (processToolCall env st tc).2 = callOutput env tc := by
  unfold callOutput processToolCall
  cases h1 : (tc.name == "get_weather")
  · cases h3 : (tc.name == "check_calendar")
    · simp [h1, h3]
    · cases h4 : _extract_date_from_calendar_json (env.exec tc.name tc.args) <;>
        simp [h1, h3, h4]
  · cases h2 : weatherGuardRejects tc <;> simp [h1, h2]

/-- Each per-call result carries exactly the id of its call. -/
theorem callOutput_id (env : ToolEnv) (tc : ToolCall) :
    callIdOf (callOutput env tc) = tc.id := by
  unfold callOutput processToolCall
  cases h1 : (tc.name == "get_weather")
  · cases h3 : (tc.name == "check_calendar")
    · simp [h1, h3, callIdOf]
    · cases h4 : _extract_date_from_calendar_json (env.exec tc.name tc.args) <;>
        simp [h1, h3, h4, callIdOf]
  · cases h2 : weatherGuardRejects tc <;> simp [h1, h2, callIdOf]

/-- The tool loop emits exactly one result per call, in order. -/
theorem runToolCalls_outputs (env : ToolEnv) (st : ChainState)
    (tcs : List ToolCall) :
    (runToolCalls env st tcs).2 = tcs.map (callOutput env) := by
  induction tcs generalizing st with
  | nil => rfl
  | cons tc rest ih => simp [runToolCalls, ih, processToolCall_snd]

/-- One call's effect on the missing-date flag. -/
theorem processToolCall_saw (env : ToolEnv) (st : ChainState)
    (tc : ToolCall) :
    (processToolCall env st tc).1.sawWeatherMissingDate =
      (st.sawWeatherMissingDate ||
        (isWeatherAccepted tc && weatherOnDateAbsent tc)) := by
  unfold processToolCall isWeatherAccepted
  cases h1 : (tc.name == "get_weather")
  · cases h3 : (tc.name == "check_calendar")
    · simp [h1, h3]
    · cases h4 : _extract_date_from_calendar_json (env.exec tc.name tc.args) <;>
        simp [h1, h3, h4]
  · cases h2 : weatherGuardRejects tc <;> simp [h1, h2]

/-- One call's effect on the resolved exam date. -/
theorem processToolCall_exam (env : ToolEnv) (st : ChainState)
    (tc : ToolCall) :
    (processToolCall env st tc).1.examDate =
      (match calExtract env tc with
       | some d => some d
       | none => st.examDate) := by
  unfold processToolCall calExtract
  cases h1 : (tc.name == "get_weather")
  · cases h3 : (tc.name == "check_calendar")
    · simp [h1, h3]
    · cases h4 : _extract_date_from_calendar_json (env.exec tc.name tc.args) <;>
        simp [h1, h3, h4]
  · cases h2 : weatherGuardRejects tc <;> simp [h1, h2]
    all_goals simp_all

/-- One call's effect on the recorded weather location. -/
theorem processToolCall_loc (env : ToolEnv) (st : ChainState)
    (tc : ToolCall) :
    (processToolCall env st tc).1.weatherLocationUsed =
      (if isWeatherAccepted tc = true then some (weatherLocArg tc)
       else st.weatherLocationUsed) := by
  unfold processToolCall isWeatherAccepted
  cases h1 : (tc.name == "get_weather")
  · cases h3 : (tc.name == "check_calendar")
    · simp [h1, h3]
    · cases h4 : _extract_date_from_calendar_json (env.exec tc.name tc.args) <;>
        simp [h1, h3, h4]
  · cases h2 : weatherGuardRejects tc <;> simp [h1, h2]

/-- The missing-date flag over a batch: set exactly when some
guard-accepted weather call lacked `on_date`. -/
theorem runToolCalls_saw_batch (env : ToolEnv) (st : ChainState)
    (tcs : List ToolCall) :
    (runToolCalls env st tcs).1.sawWeatherMissingDate =
      (st.sawWeatherMissingDate ||
        tcs.any (fun tc => isWeatherAccepted tc && weatherOnDateAbsent tc)) := by
  induction tcs generalizing st with
  | nil => simp [runToolCalls]
  | cons tc rest ih =>
    show (runToolCalls env (processToolCall env st tc).1 rest).1.sawWeatherMissingDate = _
    rw [ih, processToolCall_saw]
    simp [Bool.or_assoc]

/-- The resolved exam date over a batch is truthy exactly when some call
contributed an extracted date. -/
theorem runToolCalls_exam_truthy (env : ToolEnv) (st : ChainState)
    (tcs : List ToolCall) :
    optTruthy (runToolCalls env st tcs).1.examDate =
      (optTruthy st.examDate ||
        tcs.any (fun tc => (calExtract env tc).isSome)) := by
  induction tcs generalizing st with
  | nil => simp [runToolCalls]
  | cons tc rest ih =>
    show optTruthy (runToolCalls env (processToolCall env st tc).1 rest).1.examDate = _
    rw [ih, processToolCall_exam]
    cases h : calExtract env tc with
    | none => simp [h]
    | some d =>
      have hd : d ≠ "" := by
        unfold calExtract at h
        split at h
        · exact extract_date_ne_empty _ _ h
        · cases h
      simp [h, optTruthy, hd]

/-- The recorded weather location over a batch is truthy exactly when some
weather call passed the guard. -/
theorem runToolCalls_loc_truthy (env : ToolEnv) (st : ChainState)
    (tcs : List ToolCall) :
    optTruthy (runToolCalls env st tcs).1.weatherLocationUsed =
      (optTruthy st.weatherLocationUsed || tcs.any isWeatherAccepted) := by
  induction tcs generalizing st with
  | nil => simp [runToolCalls]
  | cons tc rest ih =>
    show optTruthy (runToolCalls env (processToolCall env st tc).1 rest).1.weatherLocationUsed = _
    rw [ih, processToolCall_loc]
    cases h : isWeatherAccepted tc with
    | false => simp [h]
    | true =>
      have hr : weatherGuardRejects tc = false := by
        unfold isWeatherAccepted at h
        have := (Bool.and_eq_true _ _).mp h
        simpa using this.2
      have hne := weatherLocArg_ne_empty tc hr
      simp [h, optTruthy, hne]

/-- Contribution of one call to the resolved exam date, in claim terms. -/
theorem calExtract_isSome_iff (env : ToolEnv) (tc : ToolCall) :
    (calExtract env tc).isSome = true ↔
      (tc.name = "check_calendar" ∧
        (_extract_date_from_calendar_json
          (env.exec tc.name tc.args)).isSome = true) := by
  unfold calExtract
  cases h : (tc.name == "check_calendar")
  · have hne : tc.name ≠ "check_calendar" := by simpa using h
    simp [hne]
  · have heq : tc.name = "check_calendar" := by simpa using h
    simp [heq]

/-- A guard-accepted weather call lacking `on_date`, in claim terms. -/
theorem weather_missing_iff (tc : ToolCall) :
    (isWeatherAccepted tc && weatherOnDateAbsent tc) = true ↔
      (tc.name = "get_weather" ∧ weatherGuardRejects tc = false ∧
        weatherOnDateAbsent tc = true) := by
  unfold isWeatherAccepted
  simp [Bool.and_eq_true, and_assoc]

/-! ## C1: the chaining rule -/

/-- C1: the chaining rule fires exactly when (a) the user text asks for
weather on the exam day, (b) some calendar call of the turn yielded an
extractable resolved date, and (c,d) some weather call of the turn lacked
`on_date` and had its location accepted (recorded) by the guard; when it
fires, exactly one extra weather result is appended, fetched with `on_date`
set to the turn's resolved exam date and `location` set to the turn's
recorded weather location, and otherwise the outputs are exactly the
per-call results. -/
theorem chain_rule_iff (env : ToolEnv) (messages : List Message) :
    (chainFireState (_last_user_text messages)
        (toolNodeState env messages) = true ↔
      (_user_requested_weather_on_exam_day (_last_user_text messages) = true ∧
       (∃ tc ∈ toolCallsOfLast messages, tc.name = "check_calendar" ∧
         (_extract_date_from_calendar_json
           (env.exec tc.name tc.args)).isSome = true) ∧
       (∃ tc ∈ toolCallsOfLast messages, tc.name = "get_weather" ∧
         weatherGuardRejects tc = false ∧ weatherOnDateAbsent tc = true))) ∧
    (chainFireState (_last_user_text messages)
        (toolNodeState env messages) = true →
      tool_node env messages = toolNodeOutputs env messages ++
        [chainedWeatherMessage env (toolNodeState env messages)]) ∧
    (chainFireState (_last_user_text messages)
        (toolNodeState env messages) = false →
      tool_node env messages = toolNodeOutputs env messages) := by
  refine ⟨?_, ?_, ?_⟩
  · unfold chainFireState toolNodeState
    rw [runToolCalls_saw_batch, runToolCalls_exam_truthy,
      runToolCalls_loc_truthy]
    simp only [initChainState, optTruthy, Bool.false_or, Bool.and_eq_true,
      List.any_eq_true]
    constructor
    · rintro ⟨⟨⟨ha, he⟩, -⟩, hs⟩
      refine ⟨ha, ?_, ?_⟩
      · obtain ⟨x, hx, hxs⟩ := he
        exact ⟨x, hx, (calExtract_isSome_iff env x).mp hxs⟩
      · obtain ⟨y, hy, hys⟩ := hs
        exact ⟨y, hy,
          (weather_missing_iff y).mp ((Bool.and_eq_true _ _).mpr hys)⟩
    · rintro ⟨ha, ⟨x, hx, hxe⟩, ⟨y, hy, hyw⟩⟩
      refine ⟨⟨⟨ha, ⟨x, hx, (calExtract_isSome_iff env x).mpr hxe⟩⟩, ?_⟩,
        ⟨y, hy,
          (Bool.and_eq_true _ _).mp ((weather_missing_iff y).mpr hyw)⟩⟩
      exact ⟨y, hy, by
        unfold isWeatherAccepted
        simp [hyw.1, hyw.2.1]⟩
  · intro h
    unfold toolNodeState at h
    simp [tool_node, toolNodeOutputs, toolNodeState, h]
  · intro h
    unfold toolNodeState at h
    simp [tool_node, toolNodeOutputs, h]

/-- C1, witness: a turn asking for weather on the exam day, with a found
calendar date and a weather call lacking `on_date`, appends exactly the
chained forecast result. -/
theorem chain_rule_iff_witness :
    tool_node chainWitnessEnv chainWitnessMessages =
      toolNodeOutputs chainWitnessEnv chainWitnessMessages ++
        [chainedWeatherMessage chainWitnessEnv
          (toolNodeState chainWitnessEnv chainWitnessMessages)] :=
  (chain_rule_iff chainWitnessEnv chainWitnessMessages).2.1 (by decide)

/-! ## C7: result identifiers -/

/-- C7: the results of a batch are exactly one per model-issued call, in
order, each carrying its call's id, plus — exactly when the chaining rule
fires — one extra result carrying the reserved identifier
`auto_chained_exam_weather`. -/
theorem tool_results_ids (env : ToolEnv) (messages : List Message) :
    (tool_node env messages).map callIdOf =
      (toolCallsOfLast messages).map ToolCall.id ++
        (if chainFireState (_last_user_text messages)
            (toolNodeState env messages) = true
         then [autoChainId] else []) := by
  unfold tool_node toolNodeState
  cases h : chainFireState (_last_user_text messages)
      ((runToolCalls env initChainState (toolCallsOfLast messages)).1)
  · simp only [h, Bool.false_eq_true, if_false, List.append_nil]
    rw [runToolCalls_outputs, List.map_map]
    exact List.map_congr_left (fun tc _ => callOutput_id env tc)
  · simp only [h, if_true, List.map_append]
    rw [runToolCalls_outputs, List.map_map]
    refine congrArg₂ _ ?_ rfl
    exact List.map_congr_left (fun tc _ => callOutput_id env tc)


/-! ## C2: loop termination -/

/-- The requested tool calls after one agent step are exactly the model's
requested calls of that step. -/
theorem toolCallsOfLast_agentStep
    (model : List Message → String × List ToolCall)
    (messages : List Message) :
    toolCallsOfLast (agentStep model messages) = (model messages).2 := by
  unfold toolCallsOfLast agentStep
  simp

/-- C2: a run result always ends in an assistant message with zero
requested tool calls (the only terminal condition); a model answer with
zero requested tool calls terminates the loop at once; and for a model
that requests a tool call on every turn the loop runs forever — no fuel
bound makes it terminate. -/
theorem orchestrate_termination :
    (∀ (env : ToolEnv) (model : List Message → String × List ToolCall)
        (fuel : Nat) (messages transcript : List Message),
      orchestrate env model fuel messages = some transcript →
        ∃ t, transcript.getLast? = some (Message.assistant t [])) ∧
    (∀ (env : ToolEnv) (model : List Message → String × List ToolCall)
        (messages : List Message),
      (model messages).2 = [] →
        orchestrate env model 1 messages =
          some (messages ++ [Message.assistant (model messages).1 []])) ∧
    (∀ (env : ToolEnv) (fuel : Nat) (messages : List Message),
      orchestrate env loopingModel fuel messages = none) := by
  refine ⟨?_, ?_, ?_⟩
  · intro env model fuel
    induction fuel with
    | zero => intro messages transcript h; cases h
    | succ n ih =>
      intro messages transcript h
      unfold orchestrate at h
      by_cases hc : should_continue (agentStep model messages) = "end"
      · rw [if_pos hc] at h
        have ht := Option.some.inj h
        subst ht
        have hcalls : (model messages).2 = [] := by
          unfold should_continue at hc
          rw [toolCallsOfLast_agentStep] at hc
          by_cases hz : (model messages).2.isEmpty = true
          · simpa using hz
          · rw [if_neg hz] at hc
            exact absurd hc (by decide)
        refine ⟨(model messages).1, ?_⟩
        unfold agentStep
        rw [hcalls]
        simp
      · rw [if_neg hc] at h
        exact ih _ _ h
  · intro env model messages h
    unfold orchestrate
    rw [if_pos (by
      unfold should_continue
      rw [toolCallsOfLast_agentStep, h]
      rfl)]
    unfold agentStep
    rw [h]
  · intro env fuel
    induction fuel with
    | zero => intro messages; rfl
    | succ n ih =>
      intro messages
      simp only [orchestrate]
      have hsc : should_continue (agentStep loopingModel messages) =
          "tools" := by
        unfold should_continue
        rw [toolCallsOfLast_agentStep]
        rfl
      rw [hsc, if_neg (by decide)]
      exact ih _

/-- C2, witness: a model answering with no tool calls terminates in one
iteration with its answer appended. -/
theorem orchestrate_termination_witness :
    orchestrate trivialEnv (fun _ => ("done", [])) 1 [] =
      some [Message.assistant "done" []] :=
  orchestrate_termination.2.1 trivialEnv (fun _ => ("done", [])) [] rfl

/-! ## C6: add idempotence and the no-duplicate invariant -/

/-- C6: adding the same valid event twice leaves the store of the first
add unchanged and answers "Event already exists." on the second call; on a
store without byte-identical duplicates the first add preserves that
invariant, and the stored copy of the added event is unique. -/
theorem add_event_idempotent (events : List Event)
    (title date_str time_str event_type : String)
    (hv : _is_valid_event (eventToJson
      (mkAddedEvent title date_str time_str event_type)) = true)
    (hnd : events.Nodup) :
    (add_event (add_event events title date_str time_str event_type).1
        title date_str time_str event_type).2 = "Event already exists." ∧
    (add_event (add_event events title date_str time_str event_type).1
        title date_str time_str event_type).1 =
      (add_event events title date_str time_str event_type).1 ∧
    (add_event events title date_str time_str event_type).1.Nodup ∧
    List.count (mkAddedEvent title date_str time_str event_type)
      (add_event events title date_str time_str event_type).1 ≤ 1 := by
  set ev := mkAddedEvent title date_str time_str event_type with hev
  have hself : eventDupMatches ev ev = true := by simp [eventDupMatches]
  by_cases hdup : events.any (fun e => eventDupMatches e ev) = true
  · have h1 : add_event events title date_str time_str event_type =
        (events, "Event already exists.") := by
      unfold add_event
      rw [← hev]
      rw [if_neg (by simp [hv]), if_pos hdup]
    have h2 : (add_event events title date_str time_str event_type).1 =
        events := by rw [h1]
    rw [h2, h1]
    exact ⟨rfl, rfl, hnd, List.nodup_iff_count_le_one.mp hnd ev⟩
  · have h1 : (add_event events title date_str time_str event_type).1 =
        (events ++ [ev]).mergeSort eventLe := by
      unfold add_event
      rw [← hev]
      rw [if_neg (by simp [hv]), if_neg hdup]
    have hperm := List.mergeSort_perm (events ++ [ev]) eventLe
    have hnotmem : ev ∉ events := fun hm =>
      hdup (List.any_eq_true.mpr ⟨ev, hm, hself⟩)
    have hdup2P : ∃ x ∈ (events ++ [ev]).mergeSort eventLe,
        eventDupMatches x ev = true :=
      ⟨ev, hperm.mem_iff.mpr (by simp), hself⟩
    have h2 : add_event ((events ++ [ev]).mergeSort eventLe)
        title date_str time_str event_type =
        ((events ++ [ev]).mergeSort eventLe, "Event already exists.") := by
      unfold add_event
      rw [← hev]
      rw [if_neg (by simp [hv]), if_pos (List.any_eq_true.mpr hdup2P)]
    refine ⟨by rw [h1, h2], by rw [h1, h2], ?_, ?_⟩
    · rw [h1]
      refine hperm.nodup_iff.mpr ?_
      exact ((List.perm_append_singleton ev events).nodup_iff).mpr
        (List.nodup_cons.mpr ⟨hnotmem, hnd⟩)
    · rw [h1, hperm.count_eq, List.count_append]
      rw [List.count_eq_zero.mpr hnotmem]
      simp

/-- C6, witness: a concrete double add of the same valid event. -/
theorem add_event_idempotent_witness :
    (add_event (add_event [] "ML Exam" "2026-02-10" "09:00" "Exam").1
        "ML Exam" "2026-02-10" "09:00" "Exam").2 = "Event already exists." ∧
    (add_event (add_event [] "ML Exam" "2026-02-10" "09:00" "Exam").1
        "ML Exam" "2026-02-10" "09:00" "Exam").1 =
      (add_event [] "ML Exam" "2026-02-10" "09:00" "Exam").1 ∧
    (add_event [] "ML Exam" "2026-02-10" "09:00" "Exam").1.Nodup ∧
    List.count (mkAddedEvent "ML Exam" "2026-02-10" "09:00" "Exam")
      (add_event [] "ML Exam" "2026-02-10" "09:00" "Exam").1 ≤ 1 :=
  add_event_idempotent [] "ML Exam" "2026-02-10" "09:00" "Exam"
    (by decide) (by decide)


/-! ## C9: most recent result per category -/

/-- C9: the per-category outputs consumed by the composer's deterministic
sections are exactly the stripped contents of the most recent tool result
of each category (weather, calendar, holiday, search) in the transcript;
any earlier result of the same category — including a weather result
superseded by the chain-synthesized one appended after it — is
overwritten. -/
theorem extract_tool_outputs_last (messages : List Message) :
    _extract_tool_outputs messages =
      ⟨lastOutputBy (· = "get_weather") messages,
       lastOutputBy (· = "check_calendar") messages,
       lastOutputBy (· ∈ holidayToolNames) messages,
       lastOutputBy (· = "search_course_materials") messages⟩ := by
  induction messages using List.reverseRecOn with
  | nil => rfl
  | append_singleton ms m ih =>
    have hstep : _extract_tool_outputs (ms ++ [m]) =
        updateToolOutputs (_extract_tool_outputs ms) m := by
      simp [_extract_tool_outputs, List.foldl_append]
    rw [hstep, ih]
    cases m with
    | user t => simp [updateToolOutputs, lastOutputBy]
    | system t => simp [updateToolOutputs, lastOutputBy]
    | assistant t tcs => simp [updateToolOutputs, lastOutputBy]
    | toolResult n c i =>
      by_cases h1 : n = "get_weather"
      · subst h1
        simp [updateToolOutputs, lastOutputBy, holidayToolNames]
      · by_cases h2 : n = "check_calendar"
        · subst h2
          simp [updateToolOutputs, lastOutputBy, holidayToolNames]
        · by_cases h3 : n = "search_course_materials"
          · subst h3
            simp [updateToolOutputs, lastOutputBy, holidayToolNames]
          · by_cases h4 : n ∈ holidayToolNames
            · simp only [holidayToolNames, List.mem_cons,
                List.mem_singleton, List.not_mem_nil, or_false] at h4
              rcases h4 with h4 | h4 | h4 <;> subst h4 <;>
                simp [updateToolOutputs, lastOutputBy, holidayToolNames]
            · simp [updateToolOutputs, lastOutputBy, h1, h2, h3, h4]


/-! ## C4: composer policy selection -/

/-- The order-preserving dedup is empty only when nothing was seen. -/
theorem uniquePreserveAux_nil_iff (xs seen : List String) :
    uniquePreserveAux xs seen = [] ↔ ∀ x ∈ xs, x ∈ seen := by
  induction xs generalizing seen with
  | nil => simp [uniquePreserveAux]
  | cons a l ih =>
    by_cases h : a ∈ seen
    · simp [uniquePreserveAux, h, ih]
    · simp [uniquePreserveAux, h]

/-- The distinct tool names are empty exactly when no tool was used. -/
theorem unique_preserve_order_nil_iff (xs : List String) :
    _unique_preserve_order xs = [] ↔ xs = [] := by
  unfold _unique_preserve_order
  rw [uniquePreserveAux_nil_iff]
  simp [List.eq_nil_iff_forall_not_mem]

/-- C4, counterexample to the claim as stated: in this transcript two
distinct tools were used and the search tool is among them, yet the
selected response is the deterministic weather section alone — no course
explanation and no evidence section — because the recorded search output
is empty and the multi-tool-with-search branch is keyed on a nonempty
recorded search output. -/
theorem chat_policy_counterexample :
    2 ≤ (_unique_preserve_order (toolNamesOf emptyRagMessages)).length ∧
    "search_course_materials" ∈
      _unique_preserve_order (toolNamesOf emptyRagMessages) ∧
    chat_select_response trivialEnv "q" emptyRagMessages =
      "**Weather**\nsunny" ∧
    strContains (chat_select_response trivialEnv "q" emptyRagMessages)
      "Course explanation" = false :=
  ⟨by decide, by decide, by decide, by decide⟩

/-- C4, amended: the composer policy is selected from the distinct tool
names used, the presence of nonempty search-tool output, and the
social/useless classification of the model's final text, in the fixed
order: no tools → the model text verbatim; exactly the search tool → the
model text unless social/useless, in which case the nonempty recorded
search output (falling back to the model text when that output is empty);
otherwise, nonempty search output present → deterministic sections plus
the grounded course explanation plus the raw evidence; otherwise →
deterministic sections only (falling back to the model text when they are
empty).  Each selection is a pure function of the environment and the
transcript, hence deterministic across repeated runs. -/
theorem chat_policy_spec (env : ToolEnv) (u : String)
    (messages : List Message) :
    (toolNamesOf messages = [] →
      chat_select_response env u messages = llmResponseOf messages) ∧
    (_unique_preserve_order (toolNamesOf messages) =
        ["search_course_materials"] →
      chat_select_response env u messages =
        (if _is_social_or_useless (llmResponseOf messages) = true then
          (if optTruthy (_extract_tool_outputs messages).rag_out = true then
            (_extract_tool_outputs messages).rag_out.getD ""
          else llmResponseOf messages)
        else llmResponseOf messages)) ∧
    (2 ≤ (_unique_preserve_order (toolNamesOf messages)).length →
      optTruthy (_extract_tool_outputs messages).rag_out = true →
      chat_select_response env u messages =
        build_final_answer_multi env u
          (_extract_tool_outputs messages).weather_out
          (_extract_tool_outputs messages).calendar_out
          (_extract_tool_outputs messages).holiday_out
          (_extract_tool_outputs messages).rag_out) ∧
    (toolNamesOf messages ≠ [] →
      _unique_preserve_order (toolNamesOf messages) ≠
        ["search_course_materials"] →
      optTruthy (_extract_tool_outputs messages).rag_out = false →
      chat_select_response env u messages =
        (if sectionJoin (nonRagParts
            (_extract_tool_outputs messages).weather_out
            (_extract_tool_outputs messages).calendar_out
            (_extract_tool_outputs messages).holiday_out) = "" then
          llmResponseOf messages
        else
          sectionJoin (nonRagParts
            (_extract_tool_outputs messages).weather_out
            (_extract_tool_outputs messages).calendar_out
            (_extract_tool_outputs messages).holiday_out))) := by
  refine ⟨?_, ?_, ?_, ?_⟩
  · intro h
    simp only [chat_select_response]
    rw [h]
    simp [_unique_preserve_order, uniquePreserveAux]
  · intro h
    simp only [chat_select_response]
    rw [h]
    simp
  · intro h2 hr
    have hne : (_unique_preserve_order (toolNamesOf messages)).isEmpty =
        false := by
      cases hu : _unique_preserve_order (toolNamesOf messages) with
      | nil => rw [hu] at h2; simp at h2
      | cons a l => rfl
    have hne2 : _unique_preserve_order (toolNamesOf messages) ≠
        ["search_course_materials"] := by
      intro hh
      rw [hh] at h2
      simp at h2
    simp only [chat_select_response]
    rw [if_neg (by simp [hne]), if_neg hne2, if_pos hr]
  · intro h1 h2 hr
    have hne : (_unique_preserve_order (toolNamesOf messages)).isEmpty =
        false := by
      cases hu : _unique_preserve_order (toolNamesOf messages) with
      | nil => exact absurd ((unique_preserve_order_nil_iff _).mp hu) h1
      | cons a l => rfl
    simp only [chat_select_response]
    rw [if_neg (by simp [hne]), if_neg h2, if_neg (by simp [hr])]

/-- C4, witness: with no tool used the composed selection is the model's
final text verbatim. -/
theorem chat_policy_spec_witness :
    chat_select_response trivialEnv "hi"
      [Message.user "hi", Message.assistant "hello" []] = "hello" :=
  (chat_policy_spec trivialEnv "hi"
    [Message.user "hi", Message.assistant "hello" []]).1 rfl

end CourseAssistant
